import Mathlib

/-!
Verification of the cmpserve zip metadata cache and extraction engine.

This file gives a shallow embedding of the core of the repository:
`internal/readers/zipfast/fast_zip_reader.go` (namespace `FastZip`) and the
older near-duplicate variant `internal/readers/zip/fast_zip_reader.go`
(namespace `ZipPkg`), and proves or refutes the frozen claims about them.

Modelling conventions:
- Bytes are natural numbers (`Byte := Nat`); `strBytes` turns a string into
  its byte list.
- The filesystem is an immutable map from paths to `DiskFile`s.  A
  `DiskFile` carries the raw container bytes, the stat results (`size`,
  `modTime`, mirroring `fileInfo.Size()` and `fileInfo.ModTime().Unix()`),
  and the outcome of `zip.NewReader`: `dir = some entries` when the central
  directory parses, `none` when `zip.NewReader` fails (corrupt container).
  `archive/zip` is Go standard-library code, so its parse is modelled as
  this abstract outcome; `flate` decoding is likewise abstracted into an
  `inflate` parameter.
- The SQLite store is a `Store` structure holding the two tables of the
  schema in `initDB`: `lookup_zip_files` rows and `lookup_zip_contents`
  rows, plus the AUTOINCREMENT counter (which SQLite never rewinds, even
  after deletes).  Each SQL statement is one atomic mutation of the store;
  a transaction (`db.Begin` .. `tx.Commit`) is modelled as an all-or-nothing
  compound step whose failure leaves the pre-transaction store.
- Go functions returning `error` are modelled as returning `Option Err`
  (`none` = nil error); the `Err` constructors name the error taxonomy of
  the specification applied to the distinct error sites of the code.
- The `indexed_at` column is written but never read by the code, so it is
  omitted from the row model.
-/

abbrev Byte := Nat

/-- Byte list of a string, for concrete containers in scenarios. -/
def strBytes (s : String) : List Byte :=
  s.data.map Char.toNat

/-- Error taxonomy of the specification, mapped onto the distinct error
return sites of the Go code. -/
inductive Err where
  | containerUnreadable
  | containerCorrupt
  | entryNotFound
  | unsupportedEncoding
  | storeError
  | decodeFailed
deriving Repr, DecidableEq

/-- One central-directory entry of a container, as produced by
`zip.NewReader`: name, compression method (`f.Method`), resolved payload
offset (`f.DataOffset()`), and declared sizes. -/
structure ZipEntry where
  name : String
  method : Nat
  dataOffset : Nat
  compressedSize : Nat
  uncompressedSize : Nat
deriving Repr, DecidableEq

/-- A file on disk: raw bytes, stat results, and the outcome of parsing it
as a zip container (`none` when `zip.NewReader` fails). -/
structure DiskFile where
  bytes : List Byte
  size : Nat
  modTime : Int
  dir : Option (List ZipEntry)
deriving Repr, DecidableEq

/-- The filesystem, immutable for the duration of a call. -/
abbrev Disk := String → Option DiskFile

/-- Stat results (`os.FileInfo`): `Size()` and `ModTime().Unix()`. -/
structure FileInfo where
  size : Nat
  modTime : Int
deriving Repr, DecidableEq

namespace FastZip

/-- A row of `lookup_zip_files` (id, zip_path UNIQUE, size,
modification_time). -/
structure ZipFileRow where
  id : Nat
  zipPath : String
  size : Nat
  modificationTime : Int
deriving Repr, DecidableEq

/-- A row of `lookup_zip_contents` (zip_id, file_name, offset,
compressed_size, uncompressed_size, compression_method), with
UNIQUE(zip_id, file_name). -/
structure ZipContentRow where
  zipId : Nat
  fileName : String
  offset : Nat
  compressedSize : Nat
  uncompressedSize : Nat
  compressionMethod : Nat
deriving Repr, DecidableEq

/-- The SQLite database: both tables plus the AUTOINCREMENT counter. -/
structure Store where
  files : List ZipFileRow
  contents : List ZipContentRow
  nextId : Nat
deriving Repr, DecidableEq

/-- The empty database, as created by `initDB`. -/
def Store.empty : Store := ⟨[], [], 1⟩

/-- SELECT id, size, modification_time FROM lookup_zip_files WHERE
zip_path equals the argument (QueryRow returns the first matching row). -/
def lookupFileRow (s : Store) (zipPath : String) : Option ZipFileRow :=
  s.files.find? (fun r => r.zipPath == zipPath)

/-- SELECT from lookup_zip_contents WHERE zip_id and file_name match. -/
def lookupContentRow (s : Store) (zipId : Nat) (fileName : String) :
    Option ZipContentRow :=
  s.contents.find? (fun c => c.zipId == zipId && c.fileName == fileName)

/-- INSERT INTO lookup_zip_files: fails (UNIQUE zip_path violation) when a
row for the path already exists; otherwise appends the row under the next
AUTOINCREMENT id and returns that id (`result.LastInsertId()`). -/
def insertFileRow (s : Store) (zipPath : String) (fi : FileInfo) :
    Option (Store × Nat) :=
  if s.files.any (fun r => r.zipPath == zipPath) then none
  else some ({ files := s.files ++ [⟨s.nextId, zipPath, fi.size, fi.modTime⟩],
               contents := s.contents,
               nextId := s.nextId + 1 }, s.nextId)

/-- Conversion of a parsed directory entry into the row inserted by the
prepared statement in `indexZipFile`. -/
def ZipEntry.toRow (e : ZipEntry) (zipId : Nat) : ZipContentRow :=
  ⟨zipId, e.name, e.dataOffset, e.compressedSize, e.uncompressedSize, e.method⟩

/-- INSERT INTO lookup_zip_contents: fails when UNIQUE(zip_id, file_name)
is violated, otherwise appends the row. -/
def insertContentRow (s : Store) (row : ZipContentRow) : Option Store :=
  if s.contents.any (fun c => c.zipId == row.zipId && c.fileName == row.fileName)
  then none
  else some { s with contents := s.contents ++ [row] }

/-- The entry-insert loop of `indexZipFile`: every directory entry is
inserted (no method is skipped); the first failing insert aborts. -/
def insertEntries (s : Store) (zipId : Nat) : List ZipEntry → Option Store
  | [] => some s
  | e :: es =>
    match insertContentRow s (ZipEntry.toRow e zipId) with
    | none => none
    | some s' => insertEntries s' zipId es

/-- Result of an indexing call: the Go error (`none` = nil), the store
after the call, and whether the archive directory parse was attempted
(`zip.NewReader` was reached). -/
structure IndexResult where
  err : Option Err
  store : Store
  parsed : Bool
deriving Repr, DecidableEq

/-- Model of `FastZipReader.indexZipFile`: open the file, parse the
directory with `zip.NewReader`, then in one transaction insert the
`lookup_zip_files` row and all `lookup_zip_contents` rows; any failure
inside the transaction rolls back to the pre-transaction store. -/
def indexZipFile (disk : Disk) (s : Store) (zipPath : String) (fi : FileInfo) :
    IndexResult :=
  match disk zipPath with
  | none => ⟨some .containerUnreadable, s, false⟩
  | some f =>
    match f.dir with
    | none => ⟨some .containerCorrupt, s, true⟩
    | some entries =>
      match insertFileRow s zipPath fi with
      | none => ⟨some .storeError, s, true⟩
      | some (s₁, zipID) =>
        match insertEntries s₁ zipID entries with
        | none => ⟨some .storeError, s, true⟩
        | some s₂ => ⟨none, s₂, true⟩

/-- Model of `FastZipReader.indexZip`: stat the file, look up the existing
row; when the row exists and size or modification time differ, DELETE the
content rows and then the file row (two separate statements, outside any
transaction) before reindexing; when the row exists and matches, return
nil without touching anything; when absent, index directly. -/
def indexZip (disk : Disk) (s : Store) (zipPath : String) : IndexResult :=
  match disk zipPath with
  | none => ⟨some .containerUnreadable, s, false⟩
  | some f =>
    match lookupFileRow s zipPath with
    | some r =>
      if r.size ≠ f.size ∨ r.modificationTime ≠ f.modTime then
        let s₁ : Store :=
          { s with contents := s.contents.filter (fun c => c.zipId != r.id) }
        let s₂ : Store :=
          { s₁ with files := s₁.files.filter (fun fr => fr.id != r.id) }
        indexZipFile disk s₂ zipPath ⟨f.size, f.modTime⟩
      else
        ⟨none, s, false⟩
    | none => indexZipFile disk s zipPath ⟨f.size, f.modTime⟩

/-- Result of a streaming call: the Go error, the store after the call,
the bytes written to the sink, and whether a directory parse happened. -/
structure StreamResult where
  err : Option Err
  store : Store
  sink : List Byte
  parsed : Bool
deriving Repr, DecidableEq

/-- The tail of `StreamFile` after a zip id is in hand: look up the entry
row, open the container, seek to the recorded offset and read exactly
`compressed_size` bytes with `io.ReadFull` (which errors iff fewer bytes
remain; `Seek` with whence 0 and a non-negative offset does not fail on an
open file), then decode per the recorded method: 0 (`zip.Store`) writes
the bytes through, 8 (`zip.Deflate`) decodes them with `inflate`, anything
else is rejected as unsupported. -/
def streamEntry (inflate : List Byte → Option (List Byte)) (disk : Disk)
    (s : Store) (zipPath : String) (zipID : Nat) (filename : String)
    (parsed : Bool) : StreamResult :=
  match lookupContentRow s zipID filename with
  | none => ⟨some .entryNotFound, s, [], parsed⟩
  | some m =>
    match disk zipPath with
    | none => ⟨some .containerUnreadable, s, [], parsed⟩
    | some f =>
      if m.offset + m.compressedSize ≤ f.bytes.length then
        let compressedData := (f.bytes.drop m.offset).take m.compressedSize
        if m.compressionMethod = 0 then
          ⟨none, s, compressedData, parsed⟩
        else if m.compressionMethod = 8 then
          match inflate compressedData with
          | some out => ⟨none, s, out, parsed⟩
          | none => ⟨some .decodeFailed, s, [], parsed⟩
        else
          ⟨some .unsupportedEncoding, s, [], parsed⟩
      else
        ⟨some .containerUnreadable, s, [], parsed⟩

/-- Model of `FastZipReader.StreamFile`: look the container up by path;
only when that lookup finds no row is `indexZip` invoked, after which the
row is queried again (a second miss is the "database error" return);
then stream the entry. -/
def StreamFile (inflate : List Byte → Option (List Byte)) (disk : Disk)
    (s : Store) (zipPath filename : String) : StreamResult :=
  match lookupFileRow s zipPath with
  | some r => streamEntry inflate disk s zipPath r.id filename false
  | none =>
    match indexZip disk s zipPath with
    | ⟨some e, s', parsed⟩ => ⟨some e, s', [], parsed⟩
    | ⟨none, s', parsed⟩ =>
      match lookupFileRow s' zipPath with
      | none => ⟨some .storeError, s', [], parsed⟩
      | some r => streamEntry inflate disk s' zipPath r.id filename parsed

/-- Store states of the insert transaction viewed from outside: the
transaction is one atomic step, so it contributes one durable state when
it commits and none when it fails or is never reached. -/
def txStates (disk : Disk) (s : Store) (zipPath : String) (fi : FileInfo) :
    List Store :=
  let r := indexZipFile disk s zipPath fi
  if r.err = none then [r.store] else []

/-- Durable store states passed through by one `indexZip` call, one state
per atomic mutation point: the initial store, the store after the DELETE
of the content rows, the store after the DELETE of the file row (these two
DELETEs are separate statements outside any transaction), and the store
after the insert transaction commits.  A crash can leave the store in any
of these states. -/
def indexZipStates (disk : Disk) (s : Store) (zipPath : String) : List Store :=
  match disk zipPath with
  | none => [s]
  | some f =>
    match lookupFileRow s zipPath with
    | some r =>
      if r.size ≠ f.size ∨ r.modificationTime ≠ f.modTime then
        let s₁ : Store :=
          { s with contents := s.contents.filter (fun c => c.zipId != r.id) }
        let s₂ : Store :=
          { s₁ with files := s₁.files.filter (fun fr => fr.id != r.id) }
        [s, s₁, s₂] ++ txStates disk s₂ zipPath ⟨f.size, f.modTime⟩
      else [s]
    | none => s :: txStates disk s zipPath ⟨f.size, f.modTime⟩

/-- Control state of one `indexZip` call between atomic database steps,
used to model two concurrent calls interleaving on the shared store. -/
inductive TState where
  | start
  | delContents (zipID : Nat) (fi : FileInfo)
  | delFiles (zipID : Nat) (fi : FileInfo)
  | parsePhase (fi : FileInfo)
  | txPhase (fi : FileInfo) (entries : List ZipEntry)
  | done (err : Option Err)
deriving Repr, DecidableEq

/-- One atomic step of an `indexZip` call: the stat plus lookup query (all
read-only) is one step, each DELETE is one step, the open plus directory
parse is one step, and the insert transaction is one step.  The returned
Bool records whether this step performed the directory parse. -/
def threadStep (disk : Disk) (zipPath : String) (s : Store) :
    TState → Store × TState × Bool
  | .start =>
    match disk zipPath with
    | none => (s, .done (some .containerUnreadable), false)
    | some f =>
      match lookupFileRow s zipPath with
      | some r =>
        if r.size ≠ f.size ∨ r.modificationTime ≠ f.modTime then
          (s, .delContents r.id ⟨f.size, f.modTime⟩, false)
        else
          (s, .done none, false)
      | none => (s, .parsePhase ⟨f.size, f.modTime⟩, false)
  | .delContents zipID fi =>
    ({ s with contents := s.contents.filter (fun c => c.zipId != zipID) },
     .delFiles zipID fi, false)
  | .delFiles zipID fi =>
    ({ s with files := s.files.filter (fun fr => fr.id != zipID) },
     .parsePhase fi, false)
  | .parsePhase fi =>
    match disk zipPath with
    | none => (s, .done (some .containerUnreadable), false)
    | some f =>
      match f.dir with
      | none => (s, .done (some .containerCorrupt), true)
      | some entries => (s, .txPhase fi entries, true)
  | .txPhase fi entries =>
    match insertFileRow s zipPath fi with
    | none => (s, .done (some .storeError), false)
    | some (s₁, zipID) =>
      match insertEntries s₁ zipID entries with
      | none => (s, .done (some .storeError), false)
      | some s₂ => (s₂, .done none, false)
  | .done e => (s, .done e, false)

/-- Shared store plus the control states of two concurrent indexing
threads, with a running count of directory parses performed. -/
structure RaceState where
  store : Store
  t₁ : TState
  t₂ : TState
  parses : Nat
deriving Repr, DecidableEq

/-- Run one atomic step of the chosen thread (false = first thread, true =
second thread) against the shared store. -/
def raceStep (disk : Disk) (zipPath : String) (rs : RaceState) (who : Bool) :
    RaceState :=
  if who then
    let (s', t', p) := threadStep disk zipPath rs.store rs.t₂
    ⟨s', rs.t₁, t', rs.parses + (if p then 1 else 0)⟩
  else
    let (s', t', p) := threadStep disk zipPath rs.store rs.t₁
    ⟨s', t', rs.t₂, rs.parses + (if p then 1 else 0)⟩

/-- Run a schedule of interleaved atomic steps of the two threads. -/
def runRace (disk : Disk) (zipPath : String) : List Bool → RaceState → RaceState
  | [], rs => rs
  | w :: ws, rs => runRace disk zipPath ws (raceStep disk zipPath rs w)

end FastZip

namespace ZipPkg

/-- A row of the single table `lookup_zip` of the older reader variant
(zip_filename, file_name, offset, compressed_size, uncompressed_size,
compression_method), with UNIQUE(zip_filename, file_name). -/
structure ContentRow where
  zipFilename : String
  fileName : String
  offset : Nat
  compressedSize : Nat
  uncompressedSize : Nat
  compressionMethod : Nat
deriving Repr, DecidableEq

/-- The older variant's database is the single `lookup_zip` table. -/
abbrev Store := List ContentRow

/-- SELECT from lookup_zip WHERE zip_filename and file_name match
(`getFileMetadata`); a miss is the "file not found in index" error. -/
def getFileMetadata (s : Store) (zipFilename filename : String) :
    Option ContentRow :=
  s.find? (fun c => c.zipFilename == zipFilename && c.fileName == filename)

/-- INSERT OR IGNORE INTO lookup_zip: a row violating
UNIQUE(zip_filename, file_name) is silently dropped. -/
def insertOrIgnore (s : Store) (row : ContentRow) : Store :=
  if s.any (fun c => c.zipFilename == row.zipFilename && c.fileName == row.fileName)
  then s
  else s ++ [row]

/-- The entry loop of the older variant's `indexZipFile`: entries whose
method is neither `zip.Store` (0) nor `zip.Deflate` (8) are skipped (the
`continue` at the top of the loop); the rest are INSERT OR IGNOREd. -/
def indexLoop (zipFilename : String) (s : Store) : List ZipEntry → Store
  | [] => s
  | e :: es =>
    if e.method ≠ 0 ∧ e.method ≠ 8 then
      indexLoop zipFilename s es
    else
      indexLoop zipFilename
        (insertOrIgnore s
          ⟨zipFilename, e.name, e.dataOffset, e.compressedSize,
           e.uncompressedSize, e.method⟩) es

/-- Model of the older variant's `indexZipFile`: open and parse the
container, then in one transaction run the entry loop.  The stat after a
successful open and `DataOffset` resolution are collapsed into the disk
model. -/
def indexZipFile (disk : Disk) (s : Store) (zipFilename : String) :
    Option Err × Store :=
  match disk zipFilename with
  | none => (some .containerUnreadable, s)
  | some f =>
    match f.dir with
    | none => (some .containerCorrupt, s)
    | some entries => (none, indexLoop zipFilename s entries)

/-- Model of the older variant's `StreamFile`: look the entry up, open the
container, seek and read exactly `compressed_size` bytes, then decode per
the recorded method exactly as in the zipfast variant. -/
def StreamFile (inflate : List Byte → Option (List Byte)) (disk : Disk)
    (s : Store) (zipFilename filename : String) : Option Err × List Byte :=
  match getFileMetadata s zipFilename filename with
  | none => (some .entryNotFound, [])
  | some m =>
    match disk zipFilename with
    | none => (some .containerUnreadable, [])
    | some f =>
      if m.offset + m.compressedSize ≤ f.bytes.length then
        let compressedData := (f.bytes.drop m.offset).take m.compressedSize
        if m.compressionMethod = 0 then
          (none, compressedData)
        else if m.compressionMethod = 8 then
          match inflate compressedData with
          | some out => (none, out)
          | none => (some .decodeFailed, [])
        else
          (some .unsupportedEncoding, [])
      else
        (some .containerUnreadable, [])

end ZipPkg

/-! Concrete containers and stores used by scenarios, counterexamples and
witnesses. -/

/-- The identity decoder: a trivial instantiation of the abstract deflate
codec in which encoding is the identity, used to evaluate the model on
concrete inputs. -/
def idInflate : List Byte → Option (List Byte) := fun b => some b

/-- Payload of the scenario entry file1.txt. -/
def hw : List Byte := strBytes "Hello, World!"

/-- Payload of the scenario entry file2.txt. -/
def afc : List Byte := strBytes "Another file content"

/-- Directory of the scenario container: both entries stored (method 0),
payloads laid out back to back. -/
def scenEntries : List ZipEntry :=
  [⟨"file1.txt", 0, 0, 13, 13⟩, ⟨"file2.txt", 0, 13, 20, 20⟩]

/-- The scenario container on disk. -/
def scenFile : DiskFile := ⟨hw ++ afc, 33, 100, some scenEntries⟩

/-- A filesystem holding only the scenario container. -/
def scenDisk : Disk := fun p => if p = "test.zip" then some scenFile else none

/-- The store after the scenario container is indexed. -/
def scenStore : FastZip.Store :=
  ⟨[⟨1, "test.zip", 33, 100⟩],
   [⟨1, "file1.txt", 0, 13, 13, 0⟩, ⟨1, "file2.txt", 13, 20, 20, 0⟩], 2⟩

/-- A cached generation for the container a.zip: indexed at size 13 and
modification time 100, one stored entry f.txt of 13 bytes at offset 0. -/
def oldStore : FastZip.Store :=
  ⟨[⟨1, "a.zip", 13, 100⟩], [⟨1, "f.txt", 0, 13, 13, 0⟩], 2⟩

/-- The container a.zip after it was rewritten on disk: new stat values
(size 15, modification time 200) and new contents. -/
def newFile : DiskFile :=
  ⟨strBytes "Updated content", 15, 200, some [⟨"f.txt", 0, 0, 15, 15⟩]⟩

/-- The filesystem after a.zip was rewritten. -/
def staleDisk : Disk := fun p => if p = "a.zip" then some newFile else none

/-- The container a.zip replaced by bytes that do not parse as a zip
container, with stat values differing from the cached generation. -/
def corruptFile : DiskFile := ⟨[1, 2, 3], 3, 300, none⟩

/-- The filesystem after a.zip was replaced by corrupt bytes. -/
def corruptDisk : Disk := fun p => if p = "a.zip" then some corruptFile else none

/-- A container holding one entry compressed with method 99 (neither
stored nor deflate). -/
def unsupFile : DiskFile := ⟨[9, 9, 9, 9], 4, 400, some [⟨"weird.bin", 99, 0, 4, 4⟩]⟩

/-- A filesystem holding only the unsupported-method container. -/
def unsupDisk : Disk := fun p => if p = "u.zip" then some unsupFile else none

namespace FastZip

/-! Helper lemmas about the store operations. -/

/-- A successful content insert appends exactly the one row. -/
theorem insertContentRow_eq {s s' : Store} {row : ZipContentRow}
    (h : insertContentRow s row = some s') :
    s' = { s with contents := s.contents ++ [row] } := by
  unfold insertContentRow at h
  split at h
  · exact absurd h (by simp)
  · exact (Option.some.inj h).symm

/-- A successful bulk entry insert leaves the file table and the id
counter unchanged and appends exactly the rows of the inserted entries. -/
theorem insertEntries_parts {zipId : Nat} :
    ∀ {es : List ZipEntry} {s s' : Store}, insertEntries s zipId es = some s' →
      s'.files = s.files ∧ s'.nextId = s.nextId ∧
      s'.contents = s.contents ++ es.map (fun e => ZipEntry.toRow e zipId)
  | [], s, s', h => by
    simp only [insertEntries] at h
    cases h
    simp
  | e :: es, s, s', h => by
    simp only [insertEntries] at h
    cases hins : insertContentRow s (ZipEntry.toRow e zipId) with
    | none => rw [hins] at h; exact absurd h (by simp)
    | some s₁ =>
      rw [hins] at h
      obtain ⟨h₁, h₂, h₃⟩ := insertEntries_parts h
      rw [insertContentRow_eq hins] at h₁ h₂ h₃
      refine ⟨h₁, h₂, ?_⟩
      simp only [List.map_cons]
      rw [h₃]
      simp

/-- Bulk entry insert succeeds when no existing row of the same zip id
clashes with an inserted name and the inserted names are distinct. -/
theorem insertEntries_some {zipId : Nat} :
    ∀ {es : List ZipEntry} {s : Store},
      (∀ c ∈ s.contents, c.zipId = zipId → c.fileName ∉ es.map ZipEntry.name) →
      (es.map ZipEntry.name).Nodup →
      insertEntries s zipId es =
        some { s with contents := s.contents ++ es.map (fun e => ZipEntry.toRow e zipId) }
  | [], s, _, _ => by simp [insertEntries]
  | e :: es, s, hclash, hnodup => by
    rw [List.map_cons, List.nodup_cons] at hnodup
    obtain ⟨hn1, hn2⟩ := hnodup
    have hclash' : ∀ c ∈ s.contents, c.zipId = zipId →
        c.fileName ∉ List.map ZipEntry.name es := by
      intro c hc hid hmem
      exact hclash c hc hid (by rw [List.map_cons]; exact List.mem_cons_of_mem _ hmem)
    have hany : (s.contents.any fun c =>
        c.zipId == (ZipEntry.toRow e zipId).zipId &&
        c.fileName == (ZipEntry.toRow e zipId).fileName) = false := by
      rw [List.any_eq_false]
      intro c hc
      simp only [ZipEntry.toRow, Bool.and_eq_true, beq_iff_eq, not_and]
      intro hid hname
      exact hclash c hc hid (by simp [hname])
    have hstep : insertContentRow s (ZipEntry.toRow e zipId) =
        some { s with contents := s.contents ++ [ZipEntry.toRow e zipId] } := by
      unfold insertContentRow
      simp only [hany]
      simp
    have hclash₂ : ∀ c ∈ s.contents ++ [ZipEntry.toRow e zipId], c.zipId = zipId →
        c.fileName ∉ List.map ZipEntry.name es := by
      intro c hc hid
      rcases List.mem_append.mp hc with hc | hc
      · exact hclash' c hc hid
      · rw [List.mem_singleton] at hc
        subst hc
        simpa [ZipEntry.toRow] using hn1
    have htail := @insertEntries_some zipId es
      { s with contents := s.contents ++ [ZipEntry.toRow e zipId] } hclash₂ hn2
    simp only [insertEntries, hstep, htail]
    congr 1
    simp

/-- Streaming an entry never mutates the store and reports the parse flag
it was given. -/
theorem streamEntry_store (inflate : List Byte → Option (List Byte)) (disk : Disk)
    (s : Store) (zipPath : String) (zipID : Nat) (filename : String) (parsed : Bool) :
    (streamEntry inflate disk s zipPath zipID filename parsed).store = s ∧
    (streamEntry inflate disk s zipPath zipID filename parsed).parsed = parsed := by
  simp only [streamEntry]
  repeat' split
  all_goals simp

/-- A successful file-row insert appends exactly the one row under the
next AUTOINCREMENT id, returns that id, and certifies that no row for the
path existed (the UNIQUE check). -/
theorem insertFileRow_eq {s s' : Store} {zipPath : String} {fi : FileInfo} {newId : Nat}
    (h : insertFileRow s zipPath fi = some (s', newId)) :
    s' = ⟨s.files ++ [⟨s.nextId, zipPath, fi.size, fi.modTime⟩], s.contents, s.nextId + 1⟩ ∧
    newId = s.nextId ∧
    (s.files.any fun r => r.zipPath == zipPath) = false := by
  unfold insertFileRow at h
  split at h
  · exact absurd h (by simp)
  · next hany =>
    obtain ⟨h₁, h₂⟩ := Prod.mk.injEq .. ▸ Option.some.inj h
    exact ⟨h₁.symm, h₂.symm, Bool.not_eq_true _ ▸ hany⟩

/-- After a successful `indexZipFile`, the directory was parsed and the
path resolves to the freshly inserted row carrying the stat fingerprint. -/
theorem indexZipFile_ok_lookup {disk : Disk} {s : Store} {zipPath : String}
    {f : DiskFile} {fi : FileInfo}
    (hf : disk zipPath = some f)
    (h : (indexZipFile disk s zipPath fi).err = none) :
    (indexZipFile disk s zipPath fi).parsed = true ∧
    lookupFileRow (indexZipFile disk s zipPath fi).store zipPath =
      some ⟨s.nextId, zipPath, fi.size, fi.modTime⟩ := by
  unfold indexZipFile at h ⊢
  simp only [hf] at h ⊢
  cases hdir : f.dir with
  | none => simp only [hdir] at h; exact absurd h (by simp)
  | some entries =>
    simp only [hdir] at h ⊢
    cases hins : insertFileRow s zipPath fi with
    | none => simp only [hins] at h; exact absurd h (by simp)
    | some p =>
      obtain ⟨s₁, newId⟩ := p
      simp only [hins] at h ⊢
      cases hie : insertEntries s₁ newId entries with
      | none => simp only [hie] at h; exact absurd h (by simp)
      | some s₂ =>
        simp only [hie] at h ⊢
        refine ⟨by trivial, ?_⟩
        obtain ⟨hfiles, -, -⟩ := insertEntries_parts hie
        obtain ⟨hs₁, -, hany⟩ := insertFileRow_eq hins
        simp only [lookupFileRow, hfiles, hs₁, List.find?_append]
        rw [List.find?_eq_none.mpr (by
          intro r hr
          have := List.any_eq_false.mp hany r hr
          simpa using this)]
        simp

/-- Every failing stream leaves the sink empty in this model (writer
failures and incremental decode output are not modelled). -/
theorem streamEntry_sink_empty {inflate : List Byte → Option (List Byte)} {disk : Disk}
    {s : Store} {zipPath : String} {zipID : Nat} {filename : String} {parsed : Bool}
    {e : Err}
    (h : (streamEntry inflate disk s zipPath zipID filename parsed).err = some e) :
    (streamEntry inflate disk s zipPath zipID filename parsed).sink = [] := by
  simp only [streamEntry] at h ⊢
  repeat' split at h <;> repeat' split
  all_goals simp_all

end FastZip

namespace ZipPkg

/-- Every row present after the older variant's entry loop was either
already in the store or comes from an entry whose method is supported:
unsupported entries are never recorded. -/
theorem mem_indexLoop {zipFilename : String} :
    ∀ {es : List ZipEntry} {s : Store} {row : ContentRow},
      row ∈ indexLoop zipFilename s es →
      row ∈ s ∨ row.compressionMethod = 0 ∨ row.compressionMethod = 8
  | [], _, _, h => Or.inl h
  | e :: es, s, row, h => by
    simp only [indexLoop] at h
    split at h
    · exact mem_indexLoop h
    · next hsupp =>
      rcases mem_indexLoop h with hmem | hm
      · unfold insertOrIgnore at hmem
        split at hmem
        · exact Or.inl hmem
        · rcases List.mem_append.mp hmem with hmem | hmem
          · exact Or.inl hmem
          · rw [List.mem_singleton] at hmem
            subst hmem
            rcases Decidable.not_and_iff_or_not.mp hsupp with h0 | h8
            · exact Or.inr (Or.inl (Decidable.not_not.mp h0))
            · exact Or.inr (Or.inr (Decidable.not_not.mp h8))
      · exact Or.inr hm

end ZipPkg

/-- C1: the claim is false on the code.  `StreamFile` looks the container
up by path and calls `indexZip` only when no row exists at all.  Here the
container a.zip was rewritten on disk (cached fingerprint size 13 / mtime
100 vs current 15 / 200), yet the stream call performs no parse, leaves
the store (including the old generation's entry rows) untouched, and
serves bytes read from the current file at the old cached offsets — which
are not the new contents. -/
theorem C1_counterexample :
    FastZip.lookupFileRow oldStore "a.zip" = some ⟨1, "a.zip", 13, 100⟩ ∧
    staleDisk "a.zip" = some newFile ∧
    newFile.size = 15 ∧ newFile.modTime = 200 ∧
    (FastZip.StreamFile idInflate staleDisk oldStore "a.zip" "f.txt").parsed = false ∧
    (FastZip.StreamFile idInflate staleDisk oldStore "a.zip" "f.txt").store = oldStore ∧
    (FastZip.StreamFile idInflate staleDisk oldStore "a.zip" "f.txt").err = none ∧
    (FastZip.StreamFile idInflate staleDisk oldStore "a.zip" "f.txt").sink ≠
      strBytes "Updated content" ∧
    FastZip.lookupContentRow oldStore 1 "f.txt" ≠ none := by
  decide

/-- C1 (amended): a stream call re-evaluates freshness via `indexZip` only
when the container path has no record at all; whenever a record exists,
the call performs no directory parse and leaves the store — including any
stale generation's entry rows — unchanged. -/
theorem C1_cached_row_skips_reindex
    (inflate : List Byte → Option (List Byte)) (disk : Disk) (s : FastZip.Store)
    (zipPath filename : String) (r : FastZip.ZipFileRow)
    (h : FastZip.lookupFileRow s zipPath = some r) :
    (FastZip.StreamFile inflate disk s zipPath filename).parsed = false ∧
    (FastZip.StreamFile inflate disk s zipPath filename).store = s := by
  simp only [FastZip.StreamFile, h]
  exact (FastZip.streamEntry_store inflate disk s zipPath r.id filename false).symm

/-- C1 (amended) at a concrete input. -/
theorem C1_cached_row_skips_reindex_witness :
    FastZip.lookupFileRow oldStore "a.zip" = some ⟨1, "a.zip", 13, 100⟩ ∧
    ((FastZip.StreamFile idInflate staleDisk oldStore "a.zip" "f.txt").parsed = false ∧
     (FastZip.StreamFile idInflate staleDisk oldStore "a.zip" "f.txt").store = oldStore) :=
  ⟨by decide,
   C1_cached_row_skips_reindex idInflate staleDisk oldStore "a.zip" "f.txt"
     ⟨1, "a.zip", 13, 100⟩ (by decide)⟩

/-- C2: the claim is false on the code.  The container a.zip has a cached
generation (one record, one entry row) and was replaced on disk by bytes
that do not parse, with a changed stat fingerprint.  `indexZip` deletes
the old generation before parsing, so the parse failure reports
ContainerCorrupt with the prior generation already destroyed, not left
untouched. -/
theorem C2_counterexample :
    corruptDisk "a.zip" = some corruptFile ∧
    corruptFile.dir = none ∧
    FastZip.lookupFileRow oldStore "a.zip" = some ⟨1, "a.zip", 13, 100⟩ ∧
    oldStore.contents ≠ [] ∧
    FastZip.indexZip corruptDisk oldStore "a.zip" =
      ⟨some Err.containerCorrupt, ⟨[], [], 2⟩, true⟩ := by
  decide

/-- C2 (amended): a parse failure on a never-indexed container creates no
record and leaves the store unchanged; but when a prior generation exists
and the stat fingerprint changed, the old record and its entries are
deleted before the parse is attempted, so the parse failure leaves no
cached generation for the path rather than the untouched prior one. -/
theorem C2_parse_failure_behaviour
    (disk : Disk) (s : FastZip.Store) (zipPath : String) (f : DiskFile)
    (hf : disk zipPath = some f) (hcorrupt : f.dir = none) :
    (FastZip.lookupFileRow s zipPath = none →
      FastZip.indexZip disk s zipPath = ⟨some Err.containerCorrupt, s, true⟩) ∧
    (∀ r : FastZip.ZipFileRow, FastZip.lookupFileRow s zipPath = some r →
      r.size ≠ f.size ∨ r.modificationTime ≠ f.modTime →
      FastZip.indexZip disk s zipPath =
        ⟨some Err.containerCorrupt,
         ⟨s.files.filter (fun fr => fr.id != r.id),
          s.contents.filter (fun c => c.zipId != r.id), s.nextId⟩, true⟩) := by
  constructor
  · intro hnone
    simp only [FastZip.indexZip, hf, hnone, FastZip.indexZipFile, hcorrupt]
  · intro r hr hstale
    simp only [FastZip.indexZip, hf, hr]
    rw [if_pos hstale]
    simp only [FastZip.indexZipFile, hf, hcorrupt]

/-- C2 (amended) at a concrete input. -/
theorem C2_parse_failure_behaviour_witness :
    corruptDisk "a.zip" = some corruptFile ∧ corruptFile.dir = none ∧
    ((FastZip.lookupFileRow oldStore "a.zip" = none →
      FastZip.indexZip corruptDisk oldStore "a.zip" =
        ⟨some Err.containerCorrupt, oldStore, true⟩) ∧
     (∀ r : FastZip.ZipFileRow, FastZip.lookupFileRow oldStore "a.zip" = some r →
      r.size ≠ corruptFile.size ∨ r.modificationTime ≠ corruptFile.modTime →
      FastZip.indexZip corruptDisk oldStore "a.zip" =
        ⟨some Err.containerCorrupt,
         ⟨oldStore.files.filter (fun fr => fr.id != r.id),
          oldStore.contents.filter (fun c => c.zipId != r.id), oldStore.nextId⟩, true⟩)) :=
  ⟨by decide, by decide,
   C2_parse_failure_behaviour corruptDisk oldStore "a.zip" corruptFile
     (by decide) (by decide)⟩

/-- C3: the claim is false on the code.  With a cached generation for
a.zip and a changed file on disk, the durable store state reached after
the first DELETE statement (position 1 of the state trace) still holds
the old container record while its entry rows are already gone — a mixed
state that is neither the old generation nor nothing — although the call
as a whole succeeds.  The two DELETEs run outside the insert transaction
as separate statements. -/
theorem C3_counterexample :
    FastZip.indexZipStates staleDisk oldStore "a.zip" =
      [oldStore,
       ⟨[⟨1, "a.zip", 13, 100⟩], [], 2⟩,
       ⟨[], [], 2⟩,
       ⟨[⟨2, "a.zip", 15, 200⟩], [⟨2, "f.txt", 0, 15, 15, 0⟩], 3⟩] ∧
    FastZip.lookupFileRow ⟨[⟨1, "a.zip", 13, 100⟩], [], 2⟩ "a.zip" =
      some ⟨1, "a.zip", 13, 100⟩ ∧
    FastZip.lookupContentRow ⟨[⟨1, "a.zip", 13, 100⟩], [], 2⟩ 1 "f.txt" = none ∧
    FastZip.lookupContentRow oldStore 1 "f.txt" ≠ none ∧
    (FastZip.indexZip staleDisk oldStore "a.zip").err = none := by
  decide

/-- C3 (amended): only the insert of the fresh record together with its
entries executes as one atomic unit, so no durable state ever holds a
partial new entry set; the prior deletes run outside that unit as two
separate statements, so a crash mid-operation can additionally leave the
old container record with its entries already deleted (the state at
position 1 of the trace), or the path absent entirely — not only the old
generation or nothing. -/
theorem C3_deletes_outside_transaction
    (disk : Disk) (s : FastZip.Store) (zipPath : String) (f : DiskFile)
    (r : FastZip.ZipFileRow)
    (hf : disk zipPath = some f) (hr : FastZip.lookupFileRow s zipPath = some r)
    (hstale : r.size ≠ f.size ∨ r.modificationTime ≠ f.modTime) :
    FastZip.indexZipStates disk s zipPath =
      [s,
       ⟨s.files, s.contents.filter (fun c => c.zipId != r.id), s.nextId⟩,
       ⟨s.files.filter (fun fr => fr.id != r.id),
        s.contents.filter (fun c => c.zipId != r.id), s.nextId⟩] ++
      FastZip.txStates disk
        ⟨s.files.filter (fun fr => fr.id != r.id),
         s.contents.filter (fun c => c.zipId != r.id), s.nextId⟩ zipPath
        ⟨f.size, f.modTime⟩ ∧
    FastZip.lookupFileRow
      ⟨s.files, s.contents.filter (fun c => c.zipId != r.id), s.nextId⟩ zipPath =
      some r ∧
    (∀ c ∈ s.contents.filter (fun c => c.zipId != r.id), c.zipId ≠ r.id) ∧
    (∀ t ∈ FastZip.txStates disk
        ⟨s.files.filter (fun fr => fr.id != r.id),
         s.contents.filter (fun c => c.zipId != r.id), s.nextId⟩ zipPath
        ⟨f.size, f.modTime⟩,
      ∃ entries, f.dir = some entries ∧
        t.contents = s.contents.filter (fun c => c.zipId != r.id) ++
          entries.map (fun e => FastZip.ZipEntry.toRow e s.nextId)) := by
  refine ⟨?_, ?_, ?_, ?_⟩
  · simp only [FastZip.indexZipStates, hf, hr]
    rw [if_pos hstale]
  · exact hr
  · intro c hc
    have := (List.mem_filter.mp hc).2
    simpa using this
  · intro t ht
    unfold FastZip.txStates at ht
    set s₂ : FastZip.Store :=
      ⟨s.files.filter (fun fr => fr.id != r.id),
       s.contents.filter (fun c => c.zipId != r.id), s.nextId⟩ with hs₂
    unfold FastZip.indexZipFile at ht
    simp only [hf] at ht
    cases hdir : f.dir with
    | none => simp [hdir] at ht
    | some entries =>
      simp only [hdir] at ht
      cases hins : FastZip.insertFileRow s₂ zipPath ⟨f.size, f.modTime⟩ with
      | none => simp [hins] at ht
      | some p =>
        obtain ⟨s₁, newId⟩ := p
        simp only [hins] at ht
        cases hie : FastZip.insertEntries s₁ newId entries with
        | none => simp [hie] at ht
        | some sFin =>
          simp only [hie] at ht
          simp at ht
          subst ht
          obtain ⟨-, -, hcontents⟩ := FastZip.insertEntries_parts hie
          obtain ⟨hs₁eq, hid, -⟩ := FastZip.insertFileRow_eq hins
          refine ⟨entries, rfl, ?_⟩
          rw [hcontents, hs₁eq, hid]

/-- C3 (amended) at a concrete input. -/
theorem C3_deletes_outside_transaction_witness :
    staleDisk "a.zip" = some newFile ∧
    FastZip.lookupFileRow oldStore "a.zip" = some ⟨1, "a.zip", 13, 100⟩ ∧
    FastZip.indexZipStates staleDisk oldStore "a.zip" =
      [oldStore,
       ⟨oldStore.files, oldStore.contents.filter (fun c => c.zipId != 1), oldStore.nextId⟩,
       ⟨oldStore.files.filter (fun fr => fr.id != 1),
        oldStore.contents.filter (fun c => c.zipId != 1), oldStore.nextId⟩] ++
      FastZip.txStates staleDisk
        ⟨oldStore.files.filter (fun fr => fr.id != 1),
         oldStore.contents.filter (fun c => c.zipId != 1), oldStore.nextId⟩ "a.zip"
        ⟨newFile.size, newFile.modTime⟩ :=
  ⟨by decide, by decide,
   (C3_deletes_outside_transaction staleDisk oldStore "a.zip" newFile
     ⟨1, "a.zip", 13, 100⟩ (by decide) (by decide) (by decide)).1⟩

/-- C4: for an indexed container whose entry row points at bytes that are
the stored payload (method 0) or the deflate encoding of the payload
(method 8, with `inflate` the decoder matching the `deflateBytes`
encoder), the stream call succeeds and writes exactly the original
uncompressed payload to the sink, touching nothing else. -/
theorem C4_roundtrip
    (inflate : List Byte → Option (List Byte)) (deflateBytes : List Byte → List Byte)
    (disk : Disk) (s : FastZip.Store) (zipPath filename : String)
    (r : FastZip.ZipFileRow) (m : FastZip.ZipContentRow) (f : DiskFile)
    (payload : List Byte)
    (hcodec : ∀ b, inflate (deflateBytes b) = some b)
    (hr : FastZip.lookupFileRow s zipPath = some r)
    (hm : FastZip.lookupContentRow s r.id filename = some m)
    (hf : disk zipPath = some f)
    (hbound : m.offset + m.compressedSize ≤ f.bytes.length)
    (henc : (m.compressionMethod = 0 ∧
              (f.bytes.drop m.offset).take m.compressedSize = payload) ∨
            (m.compressionMethod = 8 ∧
              (f.bytes.drop m.offset).take m.compressedSize = deflateBytes payload)) :
    FastZip.StreamFile inflate disk s zipPath filename = ⟨none, s, payload, false⟩ := by
  simp only [FastZip.StreamFile, hr, FastZip.streamEntry, hm, hf]
  rw [if_pos hbound]
  rcases henc with ⟨hm0, hdata⟩ | ⟨hm8, hdata⟩
  · rw [if_pos hm0, hdata]
  · rw [if_neg (by rw [hm8]; decide), if_pos hm8]
    simp only [hdata, hcodec]

/-- C4 at a concrete input: the stored entry file1.txt of the scenario
container streams back exactly its payload. -/
theorem C4_roundtrip_witness :
    (∀ b, idInflate (id b) = some b) ∧
    FastZip.lookupFileRow scenStore "test.zip" = some ⟨1, "test.zip", 33, 100⟩ ∧
    FastZip.lookupContentRow scenStore 1 "file1.txt" =
      some ⟨1, "file1.txt", 0, 13, 13, 0⟩ ∧
    scenDisk "test.zip" = some scenFile ∧
    FastZip.StreamFile idInflate scenDisk scenStore "test.zip" "file1.txt" =
      ⟨none, scenStore, hw, false⟩ :=
  ⟨fun _ => rfl, by decide, by decide, by decide,
   C4_roundtrip idInflate id scenDisk scenStore "test.zip" "file1.txt"
     ⟨1, "test.zip", 33, 100⟩ ⟨1, "file1.txt", 0, 13, 13, 0⟩ scenFile hw
     (fun _ => rfl) (by decide) (by decide) (by decide) (by decide)
     (Or.inl ⟨rfl, by decide⟩)⟩

namespace FastZip

/-- After a successful `indexZip`, the path resolves to a row whose stat
fingerprint matches the file on disk. -/
theorem indexZip_ok_fingerprint {disk : Disk} {s : Store} {zipPath : String}
    {f : DiskFile}
    (hf : disk zipPath = some f)
    (h : (indexZip disk s zipPath).err = none) :
    ∃ r' : ZipFileRow, lookupFileRow (indexZip disk s zipPath).store zipPath = some r' ∧
      r'.size = f.size ∧ r'.modificationTime = f.modTime := by
  unfold indexZip at h ⊢
  simp only [hf] at h ⊢
  cases hrow : lookupFileRow s zipPath with
  | some r =>
    simp only [hrow] at h ⊢
    by_cases hst : r.size ≠ f.size ∨ r.modificationTime ≠ f.modTime
    · rw [if_pos hst] at h ⊢
      obtain ⟨-, hlook⟩ := indexZipFile_ok_lookup hf h
      exact ⟨_, hlook, rfl, rfl⟩
    · rw [if_neg hst] at h ⊢
      push_neg at hst
      exact ⟨r, hrow, hst.1, hst.2⟩
  | none =>
    simp only [hrow] at h ⊢
    obtain ⟨-, hlook⟩ := indexZipFile_ok_lookup hf h
    exact ⟨_, hlook, rfl, rfl⟩

end FastZip

/-- C5: `indexZip` is idempotent on an unchanged file.  After any
successful call, running it again returns nil without attempting a
directory parse (`parsed = false`, the stat and lookup alone) and with
the store bit-for-bit unchanged — hence the same container id and the
same entry rows. -/
theorem C5_idempotent
    (disk : Disk) (s : FastZip.Store) (zipPath : String)
    (h : (FastZip.indexZip disk s zipPath).err = none) :
    FastZip.indexZip disk (FastZip.indexZip disk s zipPath).store zipPath =
      ⟨none, (FastZip.indexZip disk s zipPath).store, false⟩ := by
  cases hf : disk zipPath with
  | none =>
    exfalso
    unfold FastZip.indexZip at h
    simp [hf] at h
  | some f =>
    obtain ⟨r', hr', hsz, hmt⟩ := FastZip.indexZip_ok_fingerprint hf h
    set T := (FastZip.indexZip disk s zipPath).store with hT
    unfold FastZip.indexZip
    simp only [hf, hr']
    rw [if_neg (by simp [hsz, hmt])]

/-- C5 at a concrete input: indexing the scenario container twice. -/
theorem C5_idempotent_witness :
    (FastZip.indexZip scenDisk FastZip.Store.empty "test.zip").err = none ∧
    FastZip.indexZip scenDisk
        (FastZip.indexZip scenDisk FastZip.Store.empty "test.zip").store "test.zip" =
      ⟨none, (FastZip.indexZip scenDisk FastZip.Store.empty "test.zip").store, false⟩ :=
  ⟨by decide, C5_idempotent scenDisk FastZip.Store.empty "test.zip" (by decide)⟩

/-- C6: the claim is false on the code.  Two concurrent stream calls that
both find the scenario container unindexed both proceed to parse it (the
parse counter reaches 2 — indexing work is duplicated), and the loser's
insert transaction fails on the UNIQUE(zip_path) constraint, ending with
an error while the winner succeeds: the replace-and-insert sequence is
not serialized per container path and the calls do not all succeed. -/
theorem C6_counterexample :
    scenDisk "test.zip" = some scenFile ∧
    scenFile.dir = some scenEntries ∧
    (FastZip.runRace scenDisk "test.zip" [false, true, false, true, false, true]
      ⟨FastZip.Store.empty, .start, .start, 0⟩).parses = 2 ∧
    (FastZip.runRace scenDisk "test.zip" [false, true, false, true, false, true]
      ⟨FastZip.Store.empty, .start, .start, 0⟩).t₁ = .done none ∧
    (FastZip.runRace scenDisk "test.zip" [false, true, false, true, false, true]
      ⟨FastZip.Store.empty, .start, .start, 0⟩).t₂ = .done (some Err.storeError) := by
  decide

/-- C6 (amended): the code does not serialize indexing per container path.
For any parseable container first accessed by two concurrent calls, the
interleaving in which both pass the lookup before either commits makes
both parse the directory (duplicated indexing work), the first committer
win, and the loser's insert transaction fail with an error surfaced to
its caller (not a no-op that observes the winner); the UNIQUE(zip_path)
constraint still ensures exactly one generation of entries is stored. -/
theorem C6_unserialized_race
    (disk : Disk) (zipPath : String) (f : DiskFile) (entries : List ZipEntry)
    (hf : disk zipPath = some f) (hdir : f.dir = some entries)
    (hnodup : (entries.map ZipEntry.name).Nodup) :
    FastZip.runRace disk zipPath [false, true, false, true, false, true]
      ⟨FastZip.Store.empty, .start, .start, 0⟩ =
      ⟨⟨[⟨1, zipPath, f.size, f.modTime⟩],
        entries.map (fun e => FastZip.ZipEntry.toRow e 1), 2⟩,
       .done none, .done (some Err.storeError), 2⟩ := by
  have hins : FastZip.insertEntries ⟨[⟨1, zipPath, f.size, f.modTime⟩], [], 2⟩ 1 entries =
      some ⟨[⟨1, zipPath, f.size, f.modTime⟩],
            entries.map (fun e => FastZip.ZipEntry.toRow e 1), 2⟩ := by
    have := @FastZip.insertEntries_some 1 entries
      ⟨[⟨1, zipPath, f.size, f.modTime⟩], [], 2⟩
      (by intro c hc; simp at hc) hnodup
    simpa using this
  simp only [FastZip.runRace, FastZip.raceStep, FastZip.threadStep, hf, hdir,
    FastZip.lookupFileRow, FastZip.Store.empty, FastZip.insertFileRow, hins,
    List.find?_nil, List.any_nil, List.any_cons, List.nil_append,
    beq_self_eq_true, Bool.false_eq_true, if_false, if_true, Bool.or_true,
    Bool.true_or]

/-- C6 (amended) at a concrete input: the scenario container. -/
theorem C6_unserialized_race_witness :
    scenDisk "test.zip" = some scenFile ∧
    scenFile.dir = some scenEntries ∧
    (scenEntries.map ZipEntry.name).Nodup ∧
    FastZip.runRace scenDisk "test.zip" [false, true, false, true, false, true]
      ⟨FastZip.Store.empty, .start, .start, 0⟩ =
      ⟨⟨[⟨1, "test.zip", scenFile.size, scenFile.modTime⟩],
        scenEntries.map (fun e => FastZip.ZipEntry.toRow e 1), 2⟩,
       .done none, .done (some Err.storeError), 2⟩ :=
  ⟨by decide, by decide, by decide,
   C6_unserialized_race scenDisk "test.zip" scenFile scenEntries
     (by decide) (by decide) (by decide)⟩

/-- C7: the claim is false on the older zip reader variant, which the
claim's sources cite for the indexing side.  A container holding one
entry with method 99 indexes successfully there, yet the entry is skipped
(the store stays empty — dropped silently), and streaming it fails with
EntryNotFound, not UnsupportedEncoding. -/
theorem C7_counterexample :
    unsupDisk "u.zip" = some unsupFile ∧
    unsupFile.dir = some [⟨"weird.bin", 99, 0, 4, 4⟩] ∧
    ZipPkg.indexZipFile unsupDisk [] "u.zip" = (none, []) ∧
    ZipPkg.StreamFile idInflate unsupDisk [] "u.zip" "weird.bin" =
      (some Err.entryNotFound, []) := by
  decide

/-- C7 (amended): in the zipfast reader, every directory entry is
recorded with its method value (none is dropped), and streaming an entry
whose recorded method is neither 0 nor 8 fails with UnsupportedEncoding;
in the older zip reader variant, entries with such methods are skipped at
index time (never recorded), so streaming them fails with EntryNotFound
instead. -/
theorem C7_unsupported_encoding_behaviour
    (inflate : List Byte → Option (List Byte)) (disk : Disk)
    (zipPath filename : String) :
    (∀ (s : FastZip.Store) (fi : FileInfo) (f : DiskFile) (entries : List ZipEntry),
      disk zipPath = some f → f.dir = some entries →
      (FastZip.indexZipFile disk s zipPath fi).err = none →
      (FastZip.indexZipFile disk s zipPath fi).store.contents =
        s.contents ++ entries.map (fun e => FastZip.ZipEntry.toRow e s.nextId)) ∧
    (∀ (s : FastZip.Store) (r : FastZip.ZipFileRow) (m : FastZip.ZipContentRow)
      (f : DiskFile),
      FastZip.lookupFileRow s zipPath = some r →
      FastZip.lookupContentRow s r.id filename = some m →
      disk zipPath = some f →
      m.offset + m.compressedSize ≤ f.bytes.length →
      m.compressionMethod ≠ 0 → m.compressionMethod ≠ 8 →
      FastZip.StreamFile inflate disk s zipPath filename =
        ⟨some Err.unsupportedEncoding, s, [], false⟩) ∧
    (∀ (s : ZipPkg.Store) (row : ZipPkg.ContentRow),
      row ∈ (ZipPkg.indexZipFile disk s zipPath).2 →
      row ∈ s ∨ row.compressionMethod = 0 ∨ row.compressionMethod = 8) := by
  refine ⟨?_, ?_, ?_⟩
  · intro s fi f entries hf hdir h
    unfold FastZip.indexZipFile at h ⊢
    simp only [hf, hdir] at h ⊢
    cases hins : FastZip.insertFileRow s zipPath fi with
    | none => simp only [hins] at h; exact absurd h (by simp)
    | some p =>
      obtain ⟨s₁, newId⟩ := p
      simp only [hins] at h ⊢
      cases hie : FastZip.insertEntries s₁ newId entries with
      | none => simp only [hie] at h; exact absurd h (by simp)
      | some s₂ =>
        simp only [hie] at h ⊢
        obtain ⟨-, -, hcontents⟩ := FastZip.insertEntries_parts hie
        obtain ⟨hs₁, hid, -⟩ := FastZip.insertFileRow_eq hins
        rw [hcontents, hs₁, hid]
  · intro s r m f hr hm hf hbound hm0 hm8
    simp only [FastZip.StreamFile, hr, FastZip.streamEntry, hm, hf]
    rw [if_pos hbound, if_neg hm0, if_neg hm8]
  · intro s row hmem
    unfold ZipPkg.indexZipFile at hmem
    cases hf : disk zipPath with
    | none => simp only [hf] at hmem; exact Or.inl hmem
    | some f =>
      simp only [hf] at hmem
      cases hdir : f.dir with
      | none => simp only [hdir] at hmem; exact Or.inl hmem
      | some entries =>
        simp only [hdir] at hmem
        exact ZipPkg.mem_indexLoop hmem

/-- C7 (amended) at concrete inputs: the method-99 container, indexed and
streamed with the zipfast reader. -/
theorem C7_unsupported_encoding_behaviour_witness :
    (FastZip.indexZipFile unsupDisk FastZip.Store.empty "u.zip" ⟨4, 400⟩).store.contents =
      FastZip.Store.empty.contents ++
        [⟨"weird.bin", 99, 0, 4, 4⟩].map
          (fun e => FastZip.ZipEntry.toRow e FastZip.Store.empty.nextId) ∧
    FastZip.StreamFile idInflate unsupDisk
        ⟨[⟨1, "u.zip", 4, 400⟩], [⟨1, "weird.bin", 0, 4, 4, 99⟩], 2⟩ "u.zip" "weird.bin" =
      ⟨some Err.unsupportedEncoding,
       ⟨[⟨1, "u.zip", 4, 400⟩], [⟨1, "weird.bin", 0, 4, 4, 99⟩], 2⟩, [], false⟩ :=
  ⟨(C7_unsupported_encoding_behaviour idInflate unsupDisk "u.zip" "weird.bin").1
     FastZip.Store.empty ⟨4, 400⟩ unsupFile [⟨"weird.bin", 99, 0, 4, 4⟩]
     (by decide) (by decide) (by decide),
   (C7_unsupported_encoding_behaviour idInflate unsupDisk "u.zip" "weird.bin").2.1
     ⟨[⟨1, "u.zip", 4, 400⟩], [⟨1, "weird.bin", 0, 4, 4, 99⟩], 2⟩
     ⟨1, "u.zip", 4, 400⟩ ⟨1, "weird.bin", 0, 4, 4, 99⟩ unsupFile
     (by decide) (by decide) (by decide) (by decide) (by decide) (by decide)⟩

/-- C8: for an indexed container, a stream call for a name absent from
the current generation fails with EntryNotFound and writes nothing;
and on the concrete scenario container, streaming file1.txt (starting
from an empty store, indexing on first access) yields exactly
"Hello, World!" while streaming missing.txt fails with EntryNotFound. -/
theorem C8_entry_lookup
    (inflate : List Byte → Option (List Byte)) (disk : Disk) (s : FastZip.Store)
    (zipPath filename : String) (r : FastZip.ZipFileRow)
    (hr : FastZip.lookupFileRow s zipPath = some r)
    (hmiss : FastZip.lookupContentRow s r.id filename = none) :
    FastZip.StreamFile inflate disk s zipPath filename =
      ⟨some Err.entryNotFound, s, [], false⟩ ∧
    FastZip.StreamFile idInflate scenDisk FastZip.Store.empty "test.zip" "file1.txt" =
      ⟨none, scenStore, strBytes "Hello, World!", true⟩ ∧
    FastZip.StreamFile idInflate scenDisk scenStore "test.zip" "missing.txt" =
      ⟨some Err.entryNotFound, scenStore, [], false⟩ := by
  refine ⟨?_, by decide, by decide⟩
  simp only [FastZip.StreamFile, hr, FastZip.streamEntry, hmiss]

/-- C8 at a concrete input. -/
theorem C8_entry_lookup_witness :
    FastZip.lookupFileRow scenStore "test.zip" = some ⟨1, "test.zip", 33, 100⟩ ∧
    (FastZip.StreamFile idInflate scenDisk scenStore "test.zip" "nope.txt" =
       ⟨some Err.entryNotFound, scenStore, [], false⟩ ∧
     FastZip.StreamFile idInflate scenDisk FastZip.Store.empty "test.zip" "file1.txt" =
       ⟨none, scenStore, strBytes "Hello, World!", true⟩ ∧
     FastZip.StreamFile idInflate scenDisk scenStore "test.zip" "missing.txt" =
       ⟨some Err.entryNotFound, scenStore, [], false⟩) :=
  ⟨by decide,
   C8_entry_lookup idInflate scenDisk scenStore "test.zip" "nope.txt"
     ⟨1, "test.zip", 33, 100⟩ (by decide) (by decide)⟩

/-- C9: with the container row and entry row in hand and the container
openable, the stream call reads from the recorded offset: when fewer than
compressedSize bytes remain the call fails with ContainerUnreadable and
never reaches decoding (nothing reaches the sink); when enough bytes
remain, exactly compressedSize bytes are read, and for a stored entry
they are exactly what reaches the sink. -/
theorem C9_seek_and_read_exact
    (inflate : List Byte → Option (List Byte)) (disk : Disk) (s : FastZip.Store)
    (zipPath filename : String) (r : FastZip.ZipFileRow)
    (m : FastZip.ZipContentRow) (f : DiskFile)
    (hr : FastZip.lookupFileRow s zipPath = some r)
    (hm : FastZip.lookupContentRow s r.id filename = some m)
    (hf : disk zipPath = some f) :
    (f.bytes.length < m.offset + m.compressedSize →
      FastZip.StreamFile inflate disk s zipPath filename =
        ⟨some Err.containerUnreadable, s, [], false⟩) ∧
    (m.offset + m.compressedSize ≤ f.bytes.length →
      ((f.bytes.drop m.offset).take m.compressedSize).length = m.compressedSize ∧
      (m.compressionMethod = 0 →
        FastZip.StreamFile inflate disk s zipPath filename =
          ⟨none, s, (f.bytes.drop m.offset).take m.compressedSize, false⟩)) := by
  constructor
  · intro hshort
    simp only [FastZip.StreamFile, hr, FastZip.streamEntry, hm, hf]
    rw [if_neg (by omega)]
  · intro hbound
    refine ⟨?_, ?_⟩
    · rw [List.length_take, List.length_drop]
      omega
    · intro hm0
      simp only [FastZip.StreamFile, hr, FastZip.streamEntry, hm, hf]
      rw [if_pos hbound, if_pos hm0]

/-- C9 at a concrete input: the cached entry of a.zip points 13 bytes into
a file that now holds only 3 bytes, so the read comes up short. -/
theorem C9_seek_and_read_exact_witness :
    FastZip.lookupFileRow oldStore "a.zip" = some ⟨1, "a.zip", 13, 100⟩ ∧
    FastZip.lookupContentRow oldStore 1 "f.txt" = some ⟨1, "f.txt", 0, 13, 13, 0⟩ ∧
    corruptDisk "a.zip" = some corruptFile ∧
    ((corruptFile.bytes.length < 0 + 13 →
      FastZip.StreamFile idInflate corruptDisk oldStore "a.zip" "f.txt" =
        ⟨some Err.containerUnreadable, oldStore, [], false⟩) ∧
     (0 + 13 ≤ corruptFile.bytes.length →
      ((corruptFile.bytes.drop 0).take 13).length = 13 ∧
      (0 = 0 →
        FastZip.StreamFile idInflate corruptDisk oldStore "a.zip" "f.txt" =
          ⟨none, oldStore, (corruptFile.bytes.drop 0).take 13, false⟩))) :=
  ⟨by decide, by decide, by decide,
   C9_seek_and_read_exact idInflate corruptDisk oldStore "a.zip" "f.txt"
     ⟨1, "a.zip", 13, 100⟩ ⟨1, "f.txt", 0, 13, 13, 0⟩ corruptFile
     (by decide) (by decide) (by decide)⟩

/-- C10: any stream failure other than one arising in the decode/copy
stage leaves the sink empty — indexing failures, lookup misses, open
failures, short reads and unsupported encodings all write zero bytes.
The sink write and the incremental deflate copy are modelled atomically,
so this proves the claim's universal zero-bytes part; the possibility of
partial output inside the final write/copy stage itself is outside the
model and is not contradicted. -/
theorem C10_early_failure_writes_nothing
    (inflate : List Byte → Option (List Byte)) (disk : Disk) (s : FastZip.Store)
    (zipPath filename : String) (e : Err)
    (h : (FastZip.StreamFile inflate disk s zipPath filename).err = some e)
    (he : e ≠ Err.decodeFailed) :
    (FastZip.StreamFile inflate disk s zipPath filename).sink = [] := by
  clear he
  cases hrow : FastZip.lookupFileRow s zipPath with
  | some r =>
    simp only [FastZip.StreamFile, hrow] at h ⊢
    exact FastZip.streamEntry_sink_empty h
  | none =>
    simp only [FastZip.StreamFile, hrow] at h ⊢
    cases hidx : FastZip.indexZip disk s zipPath with
    | mk e' st p =>
      simp only [hidx] at h ⊢
      cases e' with
      | some e'' => simp
      | none =>
        cases hrow2 : FastZip.lookupFileRow st zipPath with
        | none => simp [hrow2]
        | some r =>
          simp only [hrow2] at h ⊢
          exact FastZip.streamEntry_sink_empty h

/-- C10 at a concrete input: a lookup miss fails before decoding and
writes nothing. -/
theorem C10_early_failure_writes_nothing_witness :
    (FastZip.StreamFile idInflate scenDisk scenStore "test.zip" "missing.txt").err =
      some Err.entryNotFound ∧
    Err.entryNotFound ≠ Err.decodeFailed ∧
    (FastZip.StreamFile idInflate scenDisk scenStore "test.zip" "missing.txt").sink = [] :=
  ⟨by decide, by decide,
   C10_early_failure_writes_nothing idInflate scenDisk scenStore "test.zip" "missing.txt"
     Err.entryNotFound (by decide) (by decide)⟩
